import Mathlib

/-!
Shallow embedding of the oneiro_engine infinite-canvas core
(viewport transform, shape model, shape store, interaction handlers,
tick metrics), with theorems settling the specification claims.

Numbers are modelled as exact rationals (`ℚ`); the JavaScript source
computes in IEEE doubles, and the algebraic claims are settled in the
exact model.  Where a claim depends on IEEE special values
(division by zero producing ±Infinity/NaN), those semantics are
modelled explicitly (`JVal` below).
-/

namespace Oneiro

/-- Structure `Point` from src/core/types.ts: a 2-D coordinate. -/
structure Point where
  x : ℚ
  y : ℚ
deriving DecidableEq, Repr

/-- Structure `Transform` from src/core/types.ts: viewport scale and offset. -/
structure Transform where
  scale : ℚ
  offsetX : ℚ
  offsetY : ℚ
deriving DecidableEq, Repr

/-- Structure `CanvasConfig` (the fields the transform math uses):
`minScale`/`maxScale` bounds for the scale clamp. -/
structure CanvasConfig where
  minScale : ℚ
  maxScale : ℚ
deriving DecidableEq, Repr

/-- Default configuration from `InfiniteCanvas`'s constructor:
`minScale: 0.01, maxScale: 100`. -/
def defaultConfig : CanvasConfig :=
  { minScale := 1/100, maxScale := 100 }

/-- Embedding of `InfiniteCanvas.screenToWorld`:
`(screenPos - offset) / scale`, componentwise. -/
def screenToWorld (t : Transform) (p : Point) : Point :=
  { x := (p.x - t.offsetX) / t.scale
    y := (p.y - t.offsetY) / t.scale }

/-- Embedding of `InfiniteCanvas.worldToScreen`:
`worldPos * scale + offset`, componentwise. -/
def worldToScreen (t : Transform) (p : Point) : Point :=
  { x := p.x * t.scale + t.offsetX
    y := p.y * t.scale + t.offsetY }

/-- The scale clamp as written in `handleWheel`:
`Math.max(minScale, Math.min(maxScale, s))`. -/
def clampScale (cfg : CanvasConfig) (s : ℚ) : ℚ :=
  max cfg.minScale (min cfg.maxScale s)

/-- The transform update of `InfiniteCanvas.handleWheel` (lines 87-99),
with the zoom factor `exp(-deltaY * zoomSensitivity)` abstracted as the
parameter `zoomFactor`: clamp the new scale, compute the world anchor
under the mouse from the old transform, and recompute the offset so the
anchor stays under the mouse. -/
def handleWheelZoom (cfg : CanvasConfig) (t : Transform) (mouse : Point)
    (zoomFactor : ℚ) : Transform :=
  let newScale := clampScale cfg (t.scale * zoomFactor)
  let worldX := (mouse.x - t.offsetX) / t.scale
  let worldY := (mouse.y - t.offsetY) / t.scale
  { scale := newScale
    offsetX := mouse.x - worldX * newScale
    offsetY := mouse.y - worldY * newScale }

/-- Union type `ShapeType` from src/core/types.ts. -/
inductive ShapeType
  | rectangle
  | circle
  | triangle
deriving DecidableEq, Repr

/-- Union type `ResizeHandle` from src/core/types.ts: the eight
bounding-box anchors. -/
inductive ResizeHandle
  | topLeft
  | topCenter
  | topRight
  | middleLeft
  | middleRight
  | bottomLeft
  | bottomCenter
  | bottomRight
deriving DecidableEq, Repr

/-- The test `handle.includes('left')` used by `Shape.resizeByHandle`:
the handle name contains the substring "left". -/
def ResizeHandle.isLeft : ResizeHandle → Bool
  | .topLeft => true
  | .middleLeft => true
  | .bottomLeft => true
  | _ => false

/-- The test `handle.includes('top')` used by `Shape.resizeByHandle`:
the handle name contains the substring "top". -/
def ResizeHandle.isTop : ResizeHandle → Bool
  | .topLeft => true
  | .topCenter => true
  | .topRight => true
  | _ => false

/-- The `Shape` base-class state (src/unnamed/part_010): identity, kind,
position/size in world units, and the selection flag.  The `style` and
`rotation` fields are omitted: no operation relevant to the claims reads
them.  Object identity is modelled by `id` (the source generates a
globally unique id per shape). -/
structure Shape where
  id : Nat
  type : ShapeType
  x : ℚ
  y : ℚ
  width : ℚ
  height : ℚ
  isSelected : Bool
deriving DecidableEq, Repr

/-- Embedding of `Shape.move`: translate by a delta. -/
def Shape.move (s : Shape) (dx dy : ℚ) : Shape :=
  { s with x := s.x + dx, y := s.y + dy }

/-- Embedding of `Shape.setPosition`. -/
def Shape.setPosition (s : Shape) (nx ny : ℚ) : Shape :=
  { s with x := nx, y := ny }

/-- Embedding of `Shape.setSize`: clamps both dimensions to the 10-unit
minimum (`Math.max(10, value)`). -/
def Shape.setSize (s : Shape) (w h : ℚ) : Shape :=
  { s with width := max 10 w, height := max 10 h }

/-- Embedding of `Shape.resizeByHandle` (src/unnamed/part_010 lines
153-200): the per-handle switch adjusting position/size, followed by
the two minimum-size clamps that compensate `x`/`y` for handles whose
name contains "left"/"top". -/
def Shape.resizeByHandle (s : Shape) (handle : ResizeHandle) (d : Point) :
    Shape :=
  let s1 :=
    match handle with
    | .topLeft =>
        { s with x := s.x + d.x, y := s.y + d.y,
                 width := s.width - d.x, height := s.height - d.y }
    | .topCenter =>
        { s with y := s.y + d.y, height := s.height - d.y }
    | .topRight =>
        { s with y := s.y + d.y, width := s.width + d.x,
                 height := s.height - d.y }
    | .middleLeft =>
        { s with x := s.x + d.x, width := s.width - d.x }
    | .middleRight =>
        { s with width := s.width + d.x }
    | .bottomLeft =>
        { s with x := s.x + d.x, width := s.width - d.x,
                 height := s.height + d.y }
    | .bottomCenter =>
        { s with height := s.height + d.y }
    | .bottomRight =>
        { s with width := s.width + d.x, height := s.height + d.y }
  let s2 :=
    if s1.width < 10 then
      if handle.isLeft then
        { s1 with x := s1.x - (10 - s1.width), width := 10 }
      else { s1 with width := 10 }
    else s1
  if s2.height < 10 then
    if handle.isTop then
      { s2 with y := s2.y - (10 - s2.height), height := 10 }
    else { s2 with height := 10 }
  else s2

/-- Embedding of `Shape.getHandles`: the eight bounding-box anchor
positions, in source order. -/
def Shape.getHandles (s : Shape) : List (ResizeHandle × ℚ × ℚ) :=
  [ (.topLeft, s.x, s.y),
    (.topCenter, s.x + s.width / 2, s.y),
    (.topRight, s.x + s.width, s.y),
    (.middleLeft, s.x, s.y + s.height / 2),
    (.middleRight, s.x + s.width, s.y + s.height / 2),
    (.bottomLeft, s.x, s.y + s.height),
    (.bottomCenter, s.x + s.width / 2, s.y + s.height),
    (.bottomRight, s.x + s.width, s.y + s.height) ]

/-- Embedding of `Shape.getHandleAtPoint`: first handle whose distance
to the point is at most `tolerance`.  The source compares
`Math.sqrt(d2) <= tolerance`; for `d2 ≥ 0` this is equivalent to
`0 ≤ tolerance ∧ d2 ≤ tolerance²`, which is how it is written here to
stay inside rational arithmetic. -/
def Shape.getHandleAtPoint (s : Shape) (p : Point) (tolerance : ℚ) :
    Option ResizeHandle :=
  (s.getHandles.find? (fun hi =>
      decide (0 ≤ tolerance) &&
      decide ((p.x - hi.2.1) ^ 2 + (p.y - hi.2.2) ^ 2 ≤ tolerance ^ 2))).map
    (·.1)

/-! IEEE-double special values.  `Circle.containsPoint` divides by the
radii, which are zero for degenerate ellipses; JavaScript then yields
±Infinity or NaN rather than raising an error.  `JVal` models the
outcome classification exactly: finite values are kept as rationals
(the claims settled on this model depend only on the sign/NaN/Infinity
classification, which rounding preserves). -/
inductive JVal
  | num (q : ℚ)
  | inf
  | ninf
  | nan
deriving DecidableEq, Repr

/-- JavaScript division of a finite value by a finite value (the
divisor being `+0` in the degenerate-radius case): `0/0 = NaN`,
`a/0 = ±Infinity` according to the sign of `a`, exact quotient
otherwise. -/
def jsDivide (a b : ℚ) : JVal :=
  if b = 0 then
    if a = 0 then .nan else if 0 < a then .inf else .ninf
  else .num (a / b)

/-- JavaScript squaring of a possibly non-finite value. -/
def jsSquare : JVal → JVal
  | .num q => .num (q * q)
  | .inf => .inf
  | .ninf => .inf
  | .nan => .nan

/-- JavaScript addition on possibly non-finite values. -/
def jsAdd : JVal → JVal → JVal
  | .nan, _ => .nan
  | _, .nan => .nan
  | .inf, .ninf => .nan
  | .ninf, .inf => .nan
  | .inf, _ => .inf
  | _, .inf => .inf
  | .ninf, _ => .ninf
  | _, .ninf => .ninf
  | .num a, .num b => .num (a + b)

/-- JavaScript `<=` on possibly non-finite values: any comparison with
NaN is false. -/
def jsLe : JVal → JVal → Bool
  | .nan, _ => false
  | _, .nan => false
  | .ninf, _ => true
  | _, .inf => true
  | .inf, _ => false
  | .num a, .num b => decide (a ≤ b)
  | .num _, .ninf => false

/-- Embedding of `Circle.containsPoint` (src/core/shapes/Circle.ts lines
27-32) under JavaScript number semantics: normalized ellipse equation
`(dx/rx)² + (dy/ry)² ≤ 1` with bbox-derived center and radii. -/
def circleContainsPoint (s : Shape) (p : Point) : Bool :=
  let centerX := s.x + s.width / 2
  let centerY := s.y + s.height / 2
  let radiusX := s.width / 2
  let radiusY := s.height / 2
  let dx := jsDivide (p.x - centerX) radiusX
  let dy := jsDivide (p.y - centerY) radiusY
  jsLe (jsAdd (jsSquare dx) (jsSquare dy)) (.num 1)

/-- Embedding of `Rectangle.containsPoint`: axis-aligned bounding-box
test. -/
def rectangleContainsPoint (s : Shape) (p : Point) : Bool :=
  decide (s.x ≤ p.x) && decide (p.x ≤ s.x + s.width) &&
  decide (s.y ≤ p.y) && decide (p.y ≤ s.y + s.height)

/-- The edge-sign helper inside `Triangle.containsPoint`. -/
def triangleSign (p v1 v2 : Point) : ℚ :=
  (p.x - v2.x) * (v1.y - v2.y) - (v1.x - v2.x) * (p.y - v2.y)

/-- Embedding of `Triangle.containsPoint`: barycentric sign test against
apex = bbox top-center and the two bottom corners. -/
def triangleContainsPoint (s : Shape) (p : Point) : Bool :=
  let p1 : Point := { x := s.x + s.width / 2, y := s.y }
  let p2 : Point := { x := s.x, y := s.y + s.height }
  let p3 : Point := { x := s.x + s.width, y := s.y + s.height }
  let d1 := triangleSign p p1 p2
  let d2 := triangleSign p p2 p3
  let d3 := triangleSign p p3 p1
  let hasNeg := decide (d1 < 0) || decide (d2 < 0) || decide (d3 < 0)
  let hasPos := decide (0 < d1) || decide (0 < d2) || decide (0 < d3)
  !(hasNeg && hasPos)

/-- Per-kind dispatch of the abstract `containsPoint` contract. -/
def Shape.containsPoint (s : Shape) (p : Point) : Bool :=
  match s.type with
  | .rectangle => rectangleContainsPoint s p
  | .circle => circleContainsPoint s p
  | .triangle => triangleContainsPoint s p

/-- State of `ShapeManager` (src/core/ShapeManager.ts): the ordered
shape list (z-order = list order, last = top), the selected-shape
reference (modelled by its id), the current type for new shapes, and a
fresh-id counter standing for the globally-unique `generateId()`.
Selection-change callback invocations (`onSelectionChange`) are made
explicit: event-emitting operations also return the list of payloads
passed to the callback (`none` = null, `some i` = the shape with id
`i`). -/
structure StoreState where
  shapes : List Shape
  selected : Option Nat
  currentShapeType : ShapeType
  nextId : Nat
deriving DecidableEq, Repr

/-- Payload list of `onSelectionChange` invocations produced by one
operation. -/
abbrev SelEvents := List (Option Nat)

/-- Embedding of `ShapeManager.deselectAll`: clear every `isSelected`
flag, null the selection reference, and notify once (with null). -/
def deselectAll (st : StoreState) : StoreState × SelEvents :=
  ({ st with shapes := st.shapes.map (fun s => { s with isSelected := false })
             selected := none },
   [none])

/-- Embedding of `ShapeManager.selectShape`: `deselectAll()` (which
notifies with null), set the given shape's flag, set the reference, and
notify again with the shape.  The source mutates the shape object passed
in; call sites always pass a store member, modelled here by its id. -/
def selectShape (st : StoreState) (i : Nat) : StoreState × SelEvents :=
  let d := deselectAll st
  ({ d.1 with
      shapes := d.1.shapes.map (fun s =>
        if s.id = i then { s with isSelected := true } else s)
      selected := some i },
   d.2 ++ [some i])

/-- Embedding of `ShapeManager.createShape`: append a new shape of the
current type; the fresh `generateId()` is modelled by the counter. -/
def createShape (st : StoreState) (x y w h : ℚ) : StoreState × Shape :=
  let s : Shape :=
    { id := st.nextId, type := st.currentShapeType,
      x := x, y := y, width := w, height := h, isSelected := false }
  ({ st with shapes := st.shapes ++ [s], nextId := st.nextId + 1 }, s)

/-- The `splice(index, 1)` of `ShapeManager.removeShape`: drop the first
list element with the given id. -/
def eraseFirstById : List Shape → Nat → List Shape
  | [], _ => []
  | s :: rest, i => if s.id = i then rest else s :: eraseFirstById rest i

/-- Embedding of `ShapeManager.removeShape`: if a shape with the id
exists, first `deselectAll()` when it is the selected one, then splice
it out. -/
def removeShape (st : StoreState) (i : Nat) : StoreState × SelEvents :=
  if st.shapes.any (fun s => s.id = i) then
    let d := if st.selected = some i then deselectAll st else (st, [])
    ({ d.1 with shapes := eraseFirstById d.1.shapes i }, d.2)
  else (st, [])

/-- Embedding of `ShapeManager.getShapeAtPoint`: scan from top (end of
the list) to bottom, first hit wins. -/
def getShapeAtPoint (st : StoreState) (p : Point) : Option Shape :=
  st.shapes.reverse.find? (fun s => s.containsPoint p)

/-- Embedding of `ShapeManager.getSelectedShape`, resolving the
reference against the store. -/
def getSelectedShape (st : StoreState) : Option Shape :=
  match st.selected with
  | none => none
  | some i => st.shapes.find? (fun s => s.id = i)

/-- Embedding of `ShapeManager.selectShapeById`: find by id, select if
found. -/
def selectShapeById (st : StoreState) (i : Nat) : StoreState × SelEvents :=
  match st.shapes.find? (fun s => s.id = i) with
  | some s => selectShape st s.id
  | none => (st, [])

/-- Embedding of `ShapeManager.trySelectAtPoint`: select the top shape
at the point, else deselect all. -/
def trySelectAtPoint (st : StoreState) (p : Point) : StoreState × SelEvents :=
  match getShapeAtPoint st p with
  | some s => selectShape st s.id
  | none => deselectAll st

/-- Embedding of `ShapeManager.deleteSelected`: remove the selected
shape, no-op when there is none. -/
def deleteSelected (st : StoreState) : StoreState × SelEvents :=
  match st.selected with
  | some i => removeShape st i
  | none => (st, [])

/-- Embedding of `ShapeManager.bringToFront`: move the selected shape to
the end of the list (top of the z-order).  The source's
`index !== length - 1` guard only skips redundant work; splice-and-push
of the last element is the identity either way. -/
def bringToFront (st : StoreState) : StoreState :=
  match st.selected with
  | none => st
  | some i =>
    match st.shapes.find? (fun s => s.id = i) with
    | none => st
    | some s => { st with shapes := eraseFirstById st.shapes i ++ [s] }

/-- Embedding of `ShapeManager.sendToBack`: move the selected shape to
the front of the list (bottom of the z-order). -/
def sendToBack (st : StoreState) : StoreState :=
  match st.selected with
  | none => st
  | some i =>
    match st.shapes.find? (fun s => s.id = i) with
    | none => st
    | some s => { st with shapes := s :: eraseFirstById st.shapes i }

/-- Embedding of `ShapeManager.clear`: drop all shapes, null the
selection, notify. -/
def clearStore (st : StoreState) : StoreState × SelEvents :=
  ({ st with shapes := [], selected := none }, [none])

/-- Update the store entry the source mutates through a retained object
reference (drawing/selected shape), identified by id. -/
def updateShape (st : StoreState) (i : Nat) (f : Shape → Shape) : StoreState :=
  { st with shapes := st.shapes.map (fun s => if s.id = i then f s else s) }

/-- Union type `InteractionMode` from src/core/types.ts. -/
inductive Mode
  | select
  | pan
  | draw
deriving DecidableEq, Repr

/-- Keys the `handleKeyDown` handler distinguishes. -/
inductive Key
  | delete
  | backspace
  | escape
  | other
deriving DecidableEq, Repr

/-- State of `InteractionManager` (src/core/InteractionManager.ts) plus
the store it drives: mode, the four gesture flags, the gesture anchor
`dragStartWorld`, the active resize handle, the reference to the
in-progress drawing shape (by id), and the handle tolerance. -/
structure InteractionState where
  store : StoreState
  mode : Mode
  isDragging : Bool
  isResizing : Bool
  isDrawing : Bool
  isPanning : Bool
  dragStartWorld : Point
  activeHandle : Option ResizeHandle
  drawingShapeId : Option Nat
  handleTolerance : ℚ
deriving DecidableEq, Repr

/-- The shared shape-hit branch of
`InteractionManager.handleSelectMouseDown`: select-and-drag a hit shape,
or deselect-and-pan on empty space. -/
def selectMouseDownHit (ist : InteractionState) (world : Point) :
    InteractionState × SelEvents :=
  match getShapeAtPoint ist.store world with
  | some s =>
    let r := selectShape ist.store s.id
    ({ ist with store := r.1, isDragging := true }, r.2)
  | none =>
    let r := deselectAll ist.store
    ({ ist with store := r.1, isPanning := true }, r.2)

/-- Embedding of `InteractionManager.handleSelectMouseDown` (lines
97-122): a resize handle of the selected shape wins, then shape hit,
then empty space. -/
def handleSelectMouseDown (ist : InteractionState) (world : Point) :
    InteractionState × SelEvents :=
  match getSelectedShape ist.store with
  | some sel =>
    match sel.getHandleAtPoint world ist.handleTolerance with
    | some h => ({ ist with isResizing := true, activeHandle := some h }, [])
    | none => selectMouseDownHit ist world
  | none => selectMouseDownHit ist world

/-- Embedding of `InteractionManager.handleDrawMouseDown` (lines
124-133): create a 1×1 shape at the pointer and start drawing. -/
def handleDrawMouseDown (ist : InteractionState) (world : Point) :
    InteractionState :=
  let r := createShape ist.store world.x world.y 1 1
  { ist with isDrawing := true, store := r.1, drawingShapeId := some r.2.id }

/-- Embedding of `InteractionManager.handleMouseDown` (lines 69-95):
record the gesture anchor, refresh the tolerance (`10 / scale`), and
dispatch on the mode. -/
def handleMouseDown (ist : InteractionState) (t : Transform) (world : Point) :
    InteractionState × SelEvents :=
  let ist1 := { ist with dragStartWorld := world,
                         handleTolerance := 10 / t.scale }
  match ist1.mode with
  | .select => handleSelectMouseDown ist1 world
  | .draw => (handleDrawMouseDown ist1 world, [])
  | .pan => ({ ist1 with isPanning := true }, [])

/-- Embedding of `InteractionManager.handleDragMove`: translate the
selected shape by the world delta and re-anchor. -/
def handleDragMove (ist : InteractionState) (world : Point) :
    InteractionState :=
  match getSelectedShape ist.store with
  | none => ist
  | some sel =>
    let dx := world.x - ist.dragStartWorld.x
    let dy := world.y - ist.dragStartWorld.y
    { ist with store := updateShape ist.store sel.id (fun s => s.move dx dy)
               dragStartWorld := world }

/-- Embedding of `InteractionManager.handleResizeMove`: forward the
world delta to `resizeByHandle` and re-anchor. -/
def handleResizeMove (ist : InteractionState) (world : Point) :
    InteractionState :=
  match getSelectedShape ist.store, ist.activeHandle with
  | some sel, some h =>
    let d : Point := { x := world.x - ist.dragStartWorld.x,
                       y := world.y - ist.dragStartWorld.y }
    { ist with store := updateShape ist.store sel.id
                 (fun s => s.resizeByHandle h d)
               dragStartWorld := world }
  | _, _ => ist

/-- Embedding of `InteractionManager.handleDrawMove` (lines 184-206):
recompute position/size from the anchor, flipping on negative extent,
and floor both dimensions at 10 (`setSize(Math.max(10, w), ...)`, where
`setSize` floors again).  The drawing anchor is not updated. -/
def handleDrawMove (ist : InteractionState) (world : Point) :
    InteractionState :=
  match ist.drawingShapeId with
  | none => ist
  | some i =>
    let width := world.x - ist.dragStartWorld.x
    let height := world.y - ist.dragStartWorld.y
    let x := if width < 0 then world.x else ist.dragStartWorld.x
    let w := if width < 0 then -width else width
    let y := if height < 0 then world.y else ist.dragStartWorld.y
    let h := if height < 0 then -height else height
    { ist with store := (updateShape ist.store i
        (fun s => (s.setPosition x y).setSize (max 10 w) (max 10 h))) }

/-- Embedding of `InteractionManager.handleMouseMove` (lines 135-158):
panning is left to the canvas layer; otherwise dispatch on the active
gesture (cursor updates have no core-state effect). -/
def handleMouseMove (ist : InteractionState) (world : Point) :
    InteractionState :=
  if ist.isPanning then ist
  else if ist.isDragging then handleDragMove ist world
  else if ist.isResizing then handleResizeMove ist world
  else if ist.isDrawing && ist.drawingShapeId.isSome then
    handleDrawMove ist world
  else ist

/-- Embedding of `InteractionManager.handleMouseUp` (lines 208-233):
commit or discard the drawing shape (discard iff a final dimension is
below 10; otherwise select it and switch the mode to select), then reset
every gesture flag.  The drawing shape is always present in the store,
so the unreachable lookup-failure branch leaves the store unchanged. -/
def handleMouseUp (ist : InteractionState) : InteractionState × SelEvents :=
  let r :=
    if ist.isDrawing then
      match ist.drawingShapeId with
      | some i =>
        match ist.store.shapes.find? (fun s => s.id = i) with
        | some s =>
          if s.width < 10 || s.height < 10 then
            let rr := removeShape ist.store i
            ({ ist with store := rr.1 }, rr.2)
          else
            let rr := selectShape ist.store i
            ({ ist with store := rr.1, mode := .select }, rr.2)
        | none => (ist, ([] : SelEvents))
      | none => (ist, ([] : SelEvents))
    else (ist, ([] : SelEvents))
  ({ r.1 with isDragging := false, isResizing := false, isDrawing := false,
              isPanning := false, activeHandle := none,
              drawingShapeId := none },
   r.2)

/-- Embedding of `InteractionManager.handleKeyDown` (lines 235-247):
Delete/Backspace delete the selected shape; Escape deselects and forces
select mode.  The two `if`s of the source test mutually exclusive keys,
so a match is equivalent. -/
def handleKeyDown (ist : InteractionState) (k : Key) :
    InteractionState × SelEvents :=
  match k with
  | .delete =>
    let r := deleteSelected ist.store
    ({ ist with store := r.1 }, r.2)
  | .backspace =>
    let r := deleteSelected ist.store
    ({ ist with store := r.1 }, r.2)
  | .escape =>
    let r := deselectAll ist.store
    ({ ist with store := r.1, mode := .select }, r.2)
  | .other => (ist, [])

/-- The `InfiniteCanvas` fields read and written by its own mouse-move
handler: the transform, the drag flag, and the last client-space mouse
position. -/
structure CanvasState where
  transform : Transform
  isDragging : Bool
  lastMousePos : Point
deriving DecidableEq, Repr

/-- Embedding of `InfiniteCanvas.handleWheel` (lines 79-102) together
with its callback emission: the body ends with exactly one
`notifyTransformChange()`, which hands the updated transform to
`onTransformChange`. -/
def handleWheelWithNotify (cfg : CanvasConfig) (t : Transform)
    (mouse : Point) (zoomFactor : ℚ) : Transform × List Transform :=
  let t1 := handleWheelZoom cfg t mouse zoomFactor
  (t1, [t1])

/-- Embedding of `InfiniteCanvas.handleMouseMove` (lines 113-134) with
its callback emissions: `onMouseMove` is handed the world position of
`mouse` (the canvas-local position, `client` minus the canvas origin)
exactly once; when dragging, the offset moves by the client-space delta,
the anchor is updated, and `notifyTransformChange()` fires once. -/
def canvasHandleMouseMove (cs : CanvasState) (mouse client : Point) :
    CanvasState × List Point × List Transform :=
  let world := screenToWorld cs.transform mouse
  if cs.isDragging then
    let t1 : Transform :=
      { cs.transform with
          offsetX := cs.transform.offsetX + (client.x - cs.lastMousePos.x)
          offsetY := cs.transform.offsetY + (client.y - cs.lastMousePos.y) }
    ({ cs with transform := t1, lastMousePos := client }, [world], [t1])
  else (cs, [world], [])

/-- The `onModeChange` payloads of `InteractionManager.handleMouseDown`:
the handler contains no `setMode` call site, so none are emitted. -/
def mouseDownModeChanges (_ist : InteractionState) (_world : Point) :
    List Mode := []

/-- The `onModeChange` payloads of `InteractionManager.handleMouseMove`:
the handler contains no `setMode` call site, so none are emitted. -/
def mouseMoveModeChanges (_ist : InteractionState) (_world : Point) :
    List Mode := []

/-- The `onModeChange` payloads of `InteractionManager.handleMouseUp`
(lines 208-233): `setMode('select')` — whose body fires `onModeChange`
once — is called exactly on the drawing-commit branch (drawing shape
present in the store with both dimensions at least 10). -/
def mouseUpModeChanges (ist : InteractionState) : List Mode :=
  if ist.isDrawing then
    match ist.drawingShapeId with
    | some i =>
      match ist.store.shapes.find? (fun s => s.id = i) with
      | some s => if s.width < 10 || s.height < 10 then [] else [Mode.select]
      | none => []
    | none => []
  else []

/-- The `onModeChange` payloads of `InteractionManager.handleKeyDown`
(lines 235-247): only the Escape branch calls `setMode('select')`. -/
def keyDownModeChanges (k : Key) : List Mode :=
  match k with
  | .escape => [Mode.select]
  | _ => []

/-- The `niceNormalized` threshold chain inside
`CoordinateSystem.calculateTickSpacing`: `<1.5 → 1`, `<3 → 2`,
`<7 → 5`, else `10`. -/
def niceNormalizedOf (normalized : ℚ) : ℚ :=
  if normalized < 3/2 then 1
  else if normalized < 3 then 2
  else if normalized < 7 then 5
  else 10

/-- Embedding of `CoordinateSystem.calculateTickSpacing`
(src/core/CoordinateSystem.ts lines 38-58): world spacing for an
80-pixel target, rounded to a nice value m·10ⁿ with m one of 1, 2, 5, 10.
`Math.floor(Math.log10 w)` is `Int.log 10 w` on positive rationals. -/
def calculateTickSpacing (scale : ℚ) : ℚ :=
  let worldSpacing := 80 / scale
  let magnitude : ℚ := (10 : ℚ) ^ (Int.log 10 worldSpacing)
  let normalized := worldSpacing / magnitude
  niceNormalizedOf normalized * magnitude

/-- Test fixture: the empty store, as after construction of
`ShapeManager`. -/
def emptyStore : StoreState :=
  { shapes := [], selected := none, currentShapeType := .rectangle,
    nextId := 0 }

/-- Test fixture: a store holding one unselected 100×50 rectangle at the
origin. -/
def rectStore : StoreState :=
  { shapes := [{ id := 0, type := .rectangle, x := 0, y := 0, width := 100,
                 height := 50, isSelected := false }],
    selected := none, currentShapeType := .rectangle, nextId := 1 }

/-- Test fixture: idle interaction state over a store, in a mode. -/
def idleState (st : StoreState) (m : Mode) : InteractionState :=
  { store := st, mode := m, isDragging := false, isResizing := false,
    isDrawing := false, isPanning := false,
    dragStartWorld := { x := 0, y := 0 }, activeHandle := none,
    drawingShapeId := none, handleTolerance := 10 }

/-- Test fixture: the identity viewport transform (scale 1, no offset),
under which world and screen coordinates agree. -/
def idTransform : Transform := { scale := 1, offsetX := 0, offsetY := 0 }

/-- Consistency of the selected-shape reference with the flags: with no
selection every flag is false; with a selection, a store shape carries
that id with its flag set, and every flagged shape carries that id. -/
def SelConsistent (st : StoreState) : Prop :=
  match st.selected with
  | none => ∀ s ∈ st.shapes, s.isSelected = false
  | some i => (∃ s ∈ st.shapes, s.id = i ∧ s.isSelected = true) ∧
      ∀ s ∈ st.shapes, s.isSelected = true → s.id = i

/-- The shape-store invariant: ids are distinct and below the fresh-id
counter, and the selection reference is consistent. -/
def StoreInv (st : StoreState) : Prop :=
  (st.shapes.map Shape.id).Nodup ∧
  (∀ s ∈ st.shapes, s.id < st.nextId) ∧
  SelConsistent st

/-- Scenario state: draw-mode pointer-down at world (10,10) on the empty
store (identity transform, so world = screen). -/
def c3Down : InteractionState :=
  (handleMouseDown (idleState emptyStore .draw) idTransform
    { x := 10, y := 10 }).1

/-- Scenario state: then pointer-move to world (5,5). -/
def c3Move : InteractionState := handleMouseMove c3Down { x := 5, y := 5 }

/-- Scenario state: then pointer-up. -/
def c3Up : InteractionState := (handleMouseUp c3Move).1

theorem clampScale_pos (cfg : CanvasConfig) (h : 0 < cfg.minScale) (s : ℚ) :
    0 < clampScale cfg s :=
  lt_of_lt_of_le h (le_max_left _ _)

/-- C1: zoom-to-point invariance.  For any transform with a valid
(positive-bounded) scale, any screen point and any zoom factor, the
wheel-zoom update leaves `screenToWorld` of the anchored screen point
unchanged — exactly, hence within any epsilon — including when the new
scale is clamped at `minScale` or `maxScale`. -/
theorem zoomAt_preserves_anchor (cfg : CanvasConfig) (t : Transform)
    (mouse : Point) (factor : ℚ)
    (hmin : 0 < cfg.minScale) (hscale : cfg.minScale ≤ t.scale)
    (_hfac : 0 < factor) :
    screenToWorld (handleWheelZoom cfg t mouse factor) mouse
      = screenToWorld t mouse := by
  have hs : t.scale ≠ 0 := ne_of_gt (lt_of_lt_of_le hmin hscale)
  have hns : clampScale cfg (t.scale * factor) ≠ 0 :=
    ne_of_gt (clampScale_pos cfg hmin _)
  simp only [handleWheelZoom, screenToWorld, Point.mk.injEq]
  constructor <;> · field_simp; ring

/-- C1 witness: concrete application at scale 1, offset (20, -7),
mouse (100, 50), factor 3. -/
theorem zoomAt_preserves_anchor_witness :
    (0 : ℚ) < defaultConfig.minScale ∧
    defaultConfig.minScale ≤ (1 : ℚ) ∧ (0 : ℚ) < 3 ∧
    screenToWorld
      (handleWheelZoom defaultConfig
        { scale := 1, offsetX := 20, offsetY := -7 }
        { x := 100, y := 50 } 3)
      { x := 100, y := 50 }
      = screenToWorld { scale := 1, offsetX := 20, offsetY := -7 }
          { x := 100, y := 50 } :=
  ⟨by norm_num [defaultConfig], by norm_num [defaultConfig], by norm_num,
    zoomAt_preserves_anchor defaultConfig
      { scale := 1, offsetX := 20, offsetY := -7 } { x := 100, y := 50 } 3
      (by norm_num [defaultConfig]) (by norm_num [defaultConfig])
      (by norm_num)⟩

/-- C2: coordinate round-trip.  For every transform whose scale lies in
`[minScale, maxScale]` (with positive `minScale`) the two conversions
are mutual inverses, exactly. -/
theorem screenToWorld_worldToScreen_roundTrip (cfg : CanvasConfig)
    (t : Transform) (p w : Point)
    (hmin : 0 < cfg.minScale) (hlo : cfg.minScale ≤ t.scale)
    (_hhi : t.scale ≤ cfg.maxScale) :
    worldToScreen t (screenToWorld t p) = p ∧
    screenToWorld t (worldToScreen t w) = w := by
  have hs : t.scale ≠ 0 := ne_of_gt (lt_of_lt_of_le hmin hlo)
  obtain ⟨px, py⟩ := p
  obtain ⟨wx, wy⟩ := w
  constructor <;>
    · simp only [worldToScreen, screenToWorld, Point.mk.injEq]
      constructor <;> field_simp

/-- C2 witness: round-trip at scale 2, offset (5, -3), points (7, 9)
and (-4, 11). -/
theorem screenToWorld_worldToScreen_roundTrip_witness :
    (0 : ℚ) < defaultConfig.minScale ∧
    defaultConfig.minScale ≤ (2 : ℚ) ∧ (2 : ℚ) ≤ defaultConfig.maxScale ∧
    (worldToScreen { scale := 2, offsetX := 5, offsetY := -3 }
        (screenToWorld { scale := 2, offsetX := 5, offsetY := -3 }
          { x := 7, y := 9 }) = { x := 7, y := 9 } ∧
      screenToWorld { scale := 2, offsetX := 5, offsetY := -3 }
        (worldToScreen { scale := 2, offsetX := 5, offsetY := -3 }
          { x := -4, y := 11 }) = { x := -4, y := 11 }) :=
  ⟨by norm_num [defaultConfig], by norm_num [defaultConfig],
    by norm_num [defaultConfig],
    screenToWorld_worldToScreen_roundTrip defaultConfig
      { scale := 2, offsetX := 5, offsetY := -3 }
      { x := 7, y := 9 } { x := -4, y := 11 }
      (by norm_num [defaultConfig]) (by norm_num [defaultConfig])
      (by norm_num [defaultConfig])⟩

/-- After `resizeByHandle` both dimensions are at least 10: either the
clamp fired (exact 10) or the dimension already was at least 10. -/
theorem resizeByHandle_min_dims (s : Shape) (handle : ResizeHandle)
    (d : Point) :
    10 ≤ (s.resizeByHandle handle d).width ∧
    10 ≤ (s.resizeByHandle handle d).height := by
  constructor <;>
    (cases handle <;>
      simp only [Shape.resizeByHandle, ResizeHandle.isLeft,
        ResizeHandle.isTop] <;>
      split_ifs <;> simp_all)

/-- C4: `resizeByHandle` postcondition.  Both dimensions end at least
10; for a handle naming "left" the right edge `x + width` is unchanged,
for a handle naming "top" the bottom edge `y + height` is unchanged; and
`resizeByHandle('bottom-right', (-200, -200))` on a 100×100 shape at the
origin yields width = height = 10 with x and y unchanged. -/
theorem resizeByHandle_post (s : Shape) (handle : ResizeHandle) (d : Point) :
    10 ≤ (s.resizeByHandle handle d).width ∧
    10 ≤ (s.resizeByHandle handle d).height ∧
    (handle.isLeft = true →
      (s.resizeByHandle handle d).x + (s.resizeByHandle handle d).width
        = s.x + s.width) ∧
    (handle.isTop = true →
      (s.resizeByHandle handle d).y + (s.resizeByHandle handle d).height
        = s.y + s.height) ∧
    (Shape.resizeByHandle
        { id := 0, type := .rectangle, x := 0, y := 0, width := 100,
          height := 100, isSelected := false }
        .bottomRight { x := -200, y := -200 }
      = { id := 0, type := .rectangle, x := 0, y := 0, width := 10,
          height := 10, isSelected := false }) := by
  refine ⟨(resizeByHandle_min_dims s handle d).1,
    (resizeByHandle_min_dims s handle d).2, ?_, ?_,
    by norm_num [Shape.resizeByHandle, ResizeHandle.isLeft,
      ResizeHandle.isTop]⟩ <;>
    cases handle <;>
      simp only [Shape.resizeByHandle, ResizeHandle.isLeft,
        ResizeHandle.isTop, Bool.true_eq_false, false_implies,
        forall_const] <;>
      split_ifs <;> simp_all <;> linarith

/-- C4 witness: the hypotheses of the edge-anchoring conjuncts
discharged at handle top-left on a 100×100 shape at (0,0) with delta
(-200, -200). -/
theorem resizeByHandle_post_witness :
    (Shape.resizeByHandle
        { id := 0, type := .rectangle, x := 0, y := 0, width := 100,
          height := 100, isSelected := false }
        .topLeft { x := -200, y := -200 }).x +
      (Shape.resizeByHandle
        { id := 0, type := .rectangle, x := 0, y := 0, width := 100,
          height := 100, isSelected := false }
        .topLeft { x := -200, y := -200 }).width = 0 + 100 ∧
    (Shape.resizeByHandle
        { id := 0, type := .rectangle, x := 0, y := 0, width := 100,
          height := 100, isSelected := false }
        .topLeft { x := -200, y := -200 }).y +
      (Shape.resizeByHandle
        { id := 0, type := .rectangle, x := 0, y := 0, width := 100,
          height := 100, isSelected := false }
        .topLeft { x := -200, y := -200 }).height = 0 + 100 :=
  ⟨(resizeByHandle_post
      { id := 0, type := .rectangle, x := 0, y := 0, width := 100,
        height := 100, isSelected := false }
      .topLeft { x := -200, y := -200 }).2.2.1 rfl,
   (resizeByHandle_post
      { id := 0, type := .rectangle, x := 0, y := 0, width := 100,
        height := 100, isSelected := false }
      .topLeft { x := -200, y := -200 }).2.2.2.1 rfl⟩

/-- C5 counterexample: the claim fails at creation time.  A draw-mode
pointer-down (the `handleDrawMouseDown` mutation) on the empty store
creates a shape of width = height = 1, so the store then holds a shape
violating `width ≥ 10 ∧ height ≥ 10`. -/
theorem minSize_fails_at_creation :
    ((handleDrawMouseDown (idleState emptyStore .draw)
        { x := 10, y := 10 }).store.shapes.map
      (fun s => (s.width, s.height))) = [(1, 1)] ∧
    ¬ (10 : ℚ) ≤ 1 := by
  constructor
  · rfl
  · norm_num

/-- C5 amended: the minimum-size invariant `width ≥ 10 ∧ height ≥ 10`
holds after `setSize`, after `resizeByHandle`, and for every shape a
live draw-move touches; but shape creation at draw-mode pointer-down
makes a 1×1 shape, so the invariant holds only from the first draw-move
on (an untouched 1×1 shape is discarded at pointer-up). -/
theorem minSize_after_mutations (s : Shape) (w h : ℚ)
    (handle : ResizeHandle) (d : Point) (ist : InteractionState)
    (world : Point) :
    10 ≤ (s.setSize w h).width ∧ 10 ≤ (s.setSize w h).height ∧
    10 ≤ (s.resizeByHandle handle d).width ∧
    10 ≤ (s.resizeByHandle handle d).height ∧
    (∀ s' ∈ (handleDrawMove ist world).store.shapes,
      s' ∈ ist.store.shapes ∨ (10 ≤ s'.width ∧ 10 ≤ s'.height)) := by
  refine ⟨le_max_left _ _, le_max_left _ _,
    (resizeByHandle_min_dims s handle d).1,
    (resizeByHandle_min_dims s handle d).2, ?_⟩
  intro s' hs'
  unfold handleDrawMove at hs'
  rcases hid : ist.drawingShapeId with _ | i
  · rw [hid] at hs'; exact Or.inl hs'
  · rw [hid] at hs'
    simp only [updateShape, List.mem_map] at hs'
    obtain ⟨a, ha, rfl⟩ := hs'
    by_cases hai : a.id = i
    · simp only [hai, if_pos rfl]
      exact Or.inr ⟨le_max_left _ _, le_max_left _ _⟩
    · simp only [if_neg hai]
      exact Or.inl ha

/-- C5 witness: the draw-move conjunct evaluated on the concrete
scenario state (drawing shape id 0 over the one-shape store). -/
theorem minSize_after_mutations_witness :
    10 ≤ (Shape.setSize
      { id := 0, type := .rectangle, x := 0, y := 0, width := 1, height := 1,
        isSelected := false } 3 4).width := by
  exact (minSize_after_mutations
    { id := 0, type := .rectangle, x := 0, y := 0, width := 1, height := 1,
      isSelected := false } 3 4 .topLeft { x := 0, y := 0 }
    (idleState emptyStore .draw) { x := 0, y := 0 }).1

/-- Any value JavaScript produces by dividing by zero squares to
Infinity or NaN. -/
theorem jsSquare_jsDivide_zero (q : ℚ) :
    jsSquare (jsDivide q 0) = .nan ∨ jsSquare (jsDivide q 0) = .inf := by
  simp only [jsDivide, if_pos rfl]
  split_ifs <;> simp [jsSquare]

/-- Adding Infinity-or-NaN on the left makes the JavaScript comparison
with 1 false. -/
theorem jsLe_jsAdd_left_false (v a : JVal) (hv : v = .nan ∨ v = .inf) :
    jsLe (jsAdd v (jsSquare a)) (.num 1) = false := by
  rcases hv with h | h <;> subst h <;> cases a <;> rfl

/-- Adding Infinity-or-NaN on the right makes the JavaScript comparison
with 1 false. -/
theorem jsLe_jsAdd_right_false (v a : JVal) (hv : v = .nan ∨ v = .inf) :
    jsLe (jsAdd (jsSquare a) v) (.num 1) = false := by
  rcases hv with h | h <;> subst h <;> cases a <;> rfl

/-- C9: degenerate ellipse containment.  Under JavaScript number
semantics, an ellipse whose width or height is zero contains no point:
the division by the zero radius yields NaN or ±Infinity, the squared
sum is NaN or Infinity, and the comparison with 1 is false — including
at the exact bounding-box center (the NaN case). -/
theorem degenerate_ellipse_contains_no_point (s : Shape) (p : Point)
    (hdeg : s.width = 0 ∨ s.height = 0) :
    circleContainsPoint s p = false := by
  unfold circleContainsPoint
  rcases hdeg with hw | hh
  · rw [hw]
    norm_num
    exact jsLe_jsAdd_left_false _ _ (jsSquare_jsDivide_zero _)
  · rw [hh]
    norm_num
    exact jsLe_jsAdd_right_false _ _ (jsSquare_jsDivide_zero _)

/-- C9 witness: a width-zero ellipse spanning (0,0)–(0,100) does not
contain its bounding-box center (0, 50). -/
theorem degenerate_ellipse_contains_no_point_witness :
    circleContainsPoint
      { id := 0, type := .circle, x := 0, y := 0, width := 0, height := 100,
        isSelected := false }
      { x := 0, y := 50 } = false :=
  degenerate_ellipse_contains_no_point
    { id := 0, type := .circle, x := 0, y := 0, width := 0, height := 100,
      isSelected := false }
    { x := 0, y := 50 } (Or.inl rfl)

/-- C3 counterexample: in the draw-discard scenario (pointer-down at
world (10,10), move to (5,5), pointer-up) the code behaves otherwise
than claimed: after the move the in-progress shape has width 10, not 5
(live dimensions are floored at 10); at pointer-up the shape is NOT
discarded (the store is non-empty) and the mode does NOT stay draw. -/
theorem drawDiscardScenario_claim_fails :
    c3Move.store.shapes.map Shape.width ≠ [5] ∧
    c3Up.store.shapes ≠ [] ∧
    c3Up.mode ≠ Mode.draw := by
  refine ⟨?_, ?_, ?_⟩ <;>
    (norm_num [c3Up, c3Move, c3Down, handleMouseDown, handleMouseMove,
      handleMouseUp, handleDrawMouseDown, handleDrawMove, createShape,
      updateShape, idleState, emptyStore, idTransform, Shape.setPosition,
      Shape.setSize, max_def, selectShape, deselectAll, List.find?,
      eraseFirstById]) <;> decide

/-- C3 amended: in draw mode, after pointer-down at world (10,10) and
move to (5,5), the in-progress shape spans x=5, y=5 with width and
height floored to 10; at pointer-up the final-size check `< 10` does not
fire, so the shape is kept and selected and the mode switches to select;
the store ends with exactly that one shape. -/
theorem drawDiscardScenario_actual :
    c3Move.store.shapes
      = [{ id := 0, type := .rectangle, x := 5, y := 5, width := 10,
           height := 10, isSelected := false }] ∧
    c3Up.store.shapes
      = [{ id := 0, type := .rectangle, x := 5, y := 5, width := 10,
           height := 10, isSelected := true }] ∧
    c3Up.store.selected = some 0 ∧
    c3Up.mode = Mode.select := by
  refine ⟨?_, ?_, ?_, ?_⟩ <;>
    norm_num [c3Up, c3Move, c3Down, handleMouseDown, handleMouseMove,
      handleMouseUp, handleDrawMouseDown, handleDrawMove, createShape,
      updateShape, idleState, emptyStore, idTransform, Shape.setPosition,
      Shape.setSize, max_def, selectShape, deselectAll, List.find?,
      eraseFirstById]

/-- C8 counterexample: with no shape selected and the mode draw, Escape
is not a no-op — it forces the mode to select. -/
theorem escape_without_selection_changes_mode :
    (idleState emptyStore .draw).store.selected = none ∧
    (handleKeyDown (idleState emptyStore .draw) .escape).1.mode
      = Mode.select ∧
    (idleState emptyStore .draw).mode = Mode.draw ∧
    Mode.draw ≠ Mode.select := by
  refine ⟨rfl, ?_, rfl, by decide⟩
  norm_num [handleKeyDown, deselectAll, idleState, emptyStore]

/-- Mapping the deselect update over already-unselected shapes is the
identity. -/
theorem map_unselect_id (l : List Shape)
    (h : ∀ s ∈ l, s.isSelected = false) :
    l.map (fun s => { s with isSelected := false }) = l := by
  induction l with
  | nil => rfl
  | cons a rest ih =>
    have ha := h a (List.mem_cons_self a rest)
    simp only [List.map_cons]
    rw [ih (fun s hs => h s (List.mem_cons_of_mem a hs))]
    cases a
    simp_all

/-- C8 amended: Delete/Backspace delete the selected shape and are
complete no-ops absent a selection; Escape clears the selection and
UNCONDITIONALLY forces mode = select — absent a selection it leaves the
store and the selection unchanged but still changes the mode (and still
notifies the selection callback once with null). -/
theorem keyboard_without_selection (ist : InteractionState)
    (h1 : ist.store.selected = none)
    (h2 : ∀ s ∈ ist.store.shapes, s.isSelected = false) :
    handleKeyDown ist .delete = (ist, []) ∧
    handleKeyDown ist .backspace = (ist, []) ∧
    handleKeyDown ist .escape = ({ ist with mode := Mode.select }, [none]) := by
  obtain ⟨⟨shapes, sel, cst, nid⟩, m, b1, b2, b3, b4, dsw, ah, dsi, tol⟩ := ist
  replace h1 : sel = none := h1
  subst h1
  refine ⟨?_, ?_, ?_⟩ <;>
    simp [handleKeyDown, deleteSelected, deselectAll, map_unselect_id _ h2]

/-- C8 witness: the amended keyboard behavior at the concrete
no-selection draw-mode state. -/
theorem keyboard_without_selection_witness :
    handleKeyDown (idleState emptyStore .draw) .delete
      = (idleState emptyStore .draw, []) ∧
    handleKeyDown (idleState emptyStore .draw) .escape
      = ({ idleState emptyStore .draw with mode := Mode.select }, [none]) :=
  ⟨(keyboard_without_selection (idleState emptyStore .draw) rfl
      (by intro s hs; simp [idleState, emptyStore] at hs)).1,
   (keyboard_without_selection (idleState emptyStore .draw) rfl
      (by intro s hs; simp [idleState, emptyStore] at hs)).2.2⟩

/-- C10 counterexample: one pointer-down in select mode that selects a
shape fires `onSelectionChange` twice, not once — `selectShape` first
calls `deselectAll` (which notifies with null) and then notifies again
with the shape. -/
theorem pointerDown_select_fires_twice :
    ((handleSelectMouseDown (idleState rectStore .select)
        { x := 50, y := 25 }).2).length = 2 ∧ (2 : Nat) ≠ 1 := by
  constructor
  · norm_num [handleSelectMouseDown, selectMouseDownHit, idleState,
      rectStore, getSelectedShape, getShapeAtPoint, selectShape,
      deselectAll, List.find?, Shape.containsPoint, rectangleContainsPoint]
  · decide

/-- C10 amended: per triggering event, `onTransformChange`, `onMouseMove`
and `onModeChange` fire at most once, as claimed; `onSelectionChange`
fires at most twice, and a select-mode pointer-down that selects a shape
fires it exactly twice — first with null (from the inner `deselectAll`),
then with the newly selected shape. -/
theorem callbacks_per_event_bounds :
    (∀ cfg t mouse factor,
      ((handleWheelWithNotify cfg t mouse factor).2).length ≤ 1) ∧
    (∀ cs mouse client,
      ((canvasHandleMouseMove cs mouse client).2.1).length ≤ 1 ∧
      ((canvasHandleMouseMove cs mouse client).2.2).length ≤ 1) ∧
    (∀ ist world, (mouseDownModeChanges ist world).length ≤ 1) ∧
    (∀ ist world, (mouseMoveModeChanges ist world).length ≤ 1) ∧
    (∀ ist, (mouseUpModeChanges ist).length ≤ 1) ∧
    (∀ k, (keyDownModeChanges k).length ≤ 1) ∧
    (∀ ist world, ((handleSelectMouseDown ist world).2).length ≤ 2) ∧
    (∀ ist t world, ((handleMouseDown ist t world).2).length ≤ 2) ∧
    (∀ ist, ((handleMouseUp ist).2).length ≤ 2) ∧
    (∀ ist k, ((handleKeyDown ist k).2).length ≤ 2) ∧
    (handleSelectMouseDown (idleState rectStore .select)
        { x := 50, y := 25 }).2 = [none, some 0] := by
  have hsel : ∀ ist world,
      ((selectMouseDownHit ist world).2).length ≤ 2 := by
    intro ist world
    unfold selectMouseDownHit
    cases getShapeAtPoint ist.store world <;>
      simp [selectShape, deselectAll]
  have hmain : ∀ ist world,
      ((handleSelectMouseDown ist world).2).length ≤ 2 := by
    intro ist world
    unfold handleSelectMouseDown
    cases getSelectedShape ist.store with
    | none => exact hsel _ _
    | some sel =>
      dsimp only
      cases sel.getHandleAtPoint world ist.handleTolerance with
      | none => exact hsel _ _
      | some h => simp
  have hrm : ∀ st i, ((removeShape st i).2).length ≤ 2 := by
    intro st i
    unfold removeShape
    split_ifs with hfound hselq <;> simp [deselectAll]
  refine ⟨?_, ?_, ?_, ?_, ?_, ?_, hmain, ?_, ?_, ?_, ?_⟩
  · intro cfg t mouse factor
    simp [handleWheelWithNotify]
  · intro cs mouse client
    unfold canvasHandleMouseMove
    split <;> simp
  · intro ist world
    simp [mouseDownModeChanges]
  · intro ist world
    simp [mouseMoveModeChanges]
  · intro ist
    unfold mouseUpModeChanges
    repeat' split
    all_goals simp
  · intro k
    cases k <;> simp [keyDownModeChanges]
  · intro ist t world
    unfold handleMouseDown
    dsimp only
    split
    · exact hmain _ _
    · simp
    · simp
  · intro ist
    unfold handleMouseUp
    dsimp only
    repeat' split
    all_goals first
      | exact hrm _ _
      | simp [selectShape, deselectAll]
  · intro ist k
    cases k <;> dsimp only [handleKeyDown] <;>
      first
        | simp [deselectAll]
        | (unfold deleteSelected
           repeat' split
           all_goals first | exact hrm _ _ | simp)
  · norm_num [handleSelectMouseDown, selectMouseDownHit, idleState,
      rectStore, getSelectedShape, getShapeAtPoint, selectShape,
      deselectAll, List.find?, Shape.containsPoint, rectangleContainsPoint]

theorem map_id_of_preserve (f : Shape → Shape)
    (hf : ∀ s, (f s).id = s.id) (l : List Shape) :
    (l.map f).map Shape.id = l.map Shape.id := by
  rw [List.map_map]
  exact List.map_congr_left (fun a _ => hf a)

theorem eraseFirstById_sublist (l : List Shape) (i : Nat) :
    List.Sublist (eraseFirstById l i) l := by
  induction l with
  | nil => simp [eraseFirstById]
  | cons a rest ih =>
    unfold eraseFirstById
    split_ifs
    · exact List.sublist_cons_self a rest
    · exact ih.cons₂ a

theorem mem_of_mem_eraseFirstById {a : Shape} {l : List Shape} {i : Nat}
    (h : a ∈ eraseFirstById l i) : a ∈ l :=
  (eraseFirstById_sublist l i).subset h

theorem mem_eraseFirstById_of_ne {a : Shape} {l : List Shape} {i : Nat}
    (ha : a ∈ l) (hne : a.id ≠ i) : a ∈ eraseFirstById l i := by
  induction l with
  | nil => simp at ha
  | cons b rest ih =>
    unfold eraseFirstById
    rcases List.mem_cons.1 ha with rfl | hmem
    · rw [if_neg hne]
      exact List.mem_cons_self _ _
    · split_ifs
      · exact hmem
      · exact List.mem_cons_of_mem _ (ih hmem)

theorem not_mem_map_id_eraseFirstById {l : List Shape} {i : Nat}
    (hnd : (l.map Shape.id).Nodup) :
    i ∉ (eraseFirstById l i).map Shape.id := by
  induction l with
  | nil => simp [eraseFirstById]
  | cons a rest ih =>
    rw [List.map_cons, List.nodup_cons] at hnd
    unfold eraseFirstById
    split_ifs with h
    · rw [← h]
      exact hnd.1
    · rw [List.map_cons]
      intro hcontra
      rcases List.mem_cons.1 hcontra with heq | hmem
      · exact h heq.symm
      · exact ih hnd.2 hmem

theorem id_unique {l : List Shape} (hnd : (l.map Shape.id).Nodup)
    {a b : Shape} (ha : a ∈ l) (hb : b ∈ l) (hid : a.id = b.id) : a = b := by
  induction l with
  | nil => simp at ha
  | cons c rest ih =>
    rw [List.map_cons, List.nodup_cons] at hnd
    rcases List.mem_cons.1 ha with rfl | ha' <;>
      rcases List.mem_cons.1 hb with rfl | hb'
    · rfl
    · have hmem : b.id ∈ List.map Shape.id rest :=
        List.mem_map_of_mem Shape.id hb'
      rw [← hid] at hmem
      exact absurd hmem hnd.1
    · have hmem : a.id ∈ List.map Shape.id rest :=
        List.mem_map_of_mem Shape.id ha'
      rw [hid] at hmem
      exact absurd hmem hnd.1
    · exact ih hnd.2 ha' hb'

theorem countP_selected_le_one {l : List Shape} {i : Nat}
    (hnd : (l.map Shape.id).Nodup)
    (hall : ∀ s ∈ l, s.isSelected = true → s.id = i) :
    l.countP (fun s => s.isSelected) ≤ 1 := by
  induction l with
  | nil => simp
  | cons a rest ih =>
    rw [List.map_cons, List.nodup_cons] at hnd
    rw [List.countP_cons]
    by_cases ha : a.isSelected = true
    · have hai : a.id = i := hall a (List.mem_cons_self _ _) ha
      have hrest : rest.countP (fun s => s.isSelected) = 0 := by
        rw [List.countP_eq_zero]
        intro s hs hsel
        have hsi : s.id = i :=
          hall s (List.mem_cons_of_mem _ hs) (by simpa using hsel)
        exact hnd.1 (hai ▸ hsi ▸ List.mem_map_of_mem Shape.id hs)
      simp [ha, hrest]
    · have := ih hnd.2 (fun s hs => hall s (List.mem_cons_of_mem _ hs))
      simp only [ha]
      simpa using this
theorem storeInv_deselectAll {st : StoreState} (h : StoreInv st) :
    StoreInv (deselectAll st).1 := by
  obtain ⟨hnd, hlt, _⟩ := h
  refine ⟨?_, ?_, ?_⟩
  · rw [show (deselectAll st).1.shapes
        = st.shapes.map (fun s => { s with isSelected := false }) from rfl]
    rw [map_id_of_preserve (fun s => { s with isSelected := false })
      (fun s => rfl)]
    exact hnd
  · intro s hs
    simp only [deselectAll, List.mem_map] at hs
    obtain ⟨a, ha, rfl⟩ := hs
    exact hlt a ha
  · show ∀ s ∈ (deselectAll st).1.shapes, s.isSelected = false
    intro s hs
    simp only [deselectAll, List.mem_map] at hs
    obtain ⟨a, _, rfl⟩ := hs
    rfl

theorem storeInv_selectShape {st : StoreState} (h : StoreInv st) (i : Nat)
    (hex : ∃ s ∈ st.shapes, s.id = i) :
    StoreInv (selectShape st i).1 := by
  obtain ⟨hnd, hlt, _⟩ := h
  have hshapes : (selectShape st i).1.shapes
      = (st.shapes.map (fun s => { s with isSelected := false })).map
          (fun s => if s.id = i then { s with isSelected := true } else s) :=
    rfl
  refine ⟨?_, ?_, ?_⟩
  · rw [hshapes,
      map_id_of_preserve
        (fun s => if s.id = i then { s with isSelected := true } else s)
        (fun s => by dsimp only; split_ifs <;> rfl),
      map_id_of_preserve (fun s => { s with isSelected := false })
        (fun s => rfl)]
    exact hnd
  · intro s hs
    rw [hshapes] at hs
    simp only [List.mem_map] at hs
    obtain ⟨a, ⟨b, hb, rfl⟩, rfl⟩ := hs
    split_ifs <;> exact hlt b hb
  · show SelConsistent (selectShape st i).1
    have hselq : (selectShape st i).1.selected = some i := rfl
    unfold SelConsistent
    rw [hselq]
    constructor
    · obtain ⟨a, ha, hai⟩ := hex
      refine ⟨{ a with isSelected := true }, ?_, hai, rfl⟩
      rw [hshapes]
      have h1 : ({ a with isSelected := false } : Shape)
          ∈ st.shapes.map (fun s => { s with isSelected := false }) :=
        List.mem_map_of_mem _ ha
      have h2 := List.mem_map_of_mem
        (fun s => if s.id = i then { s with isSelected := true } else s) h1
      simpa [hai] using h2
    · intro s hs hsel
      rw [hshapes] at hs
      simp only [List.mem_map] at hs
      obtain ⟨a, ⟨b, hb, rfl⟩, rfl⟩ := hs
      by_cases hbi : b.id = i
      · subst hbi
        rw [if_pos rfl]
      · simp only [if_neg hbi] at hsel
        cases hsel
theorem storeInv_createShape {st : StoreState} (h : StoreInv st)
    (x y w hgt : ℚ) : StoreInv (createShape st x y w hgt).1 := by
  obtain ⟨hnd, hlt, hsel⟩ := h
  refine ⟨?_, ?_, ?_⟩
  · show (List.map Shape.id (st.shapes ++ [_])).Nodup
    rw [List.map_append, List.nodup_append]
    refine ⟨hnd, List.nodup_singleton _, ?_⟩
    intro a ha hb
    simp only [List.map_cons, List.map_nil, List.mem_singleton] at hb
    subst hb
    simp only [List.mem_map] at ha
    obtain ⟨b, hb, hid⟩ := ha
    exact absurd hid (Nat.ne_of_lt (hlt b hb))
  · intro s hs
    rcases List.mem_append.1 hs with hs | hs
    · exact Nat.lt_succ_of_lt (hlt s hs)
    · simp only [List.mem_singleton] at hs
      subst hs
      exact Nat.lt_succ_self _
  · show SelConsistent (createShape st x y w hgt).1
    unfold SelConsistent at hsel ⊢
    have heq : (createShape st x y w hgt).1.selected = st.selected := rfl
    rw [heq]
    rcases hq : st.selected with _ | j <;> rw [hq] at hsel <;> dsimp only
    · intro s hs
      rcases List.mem_append.1 hs with hs | hs
      · exact hsel s hs
      · simp only [List.mem_singleton] at hs
        subst hs
        rfl
    · obtain ⟨⟨a, ha, hai, hasel⟩, hall⟩ := hsel
      refine ⟨⟨a, List.mem_append_left _ ha, hai, hasel⟩, ?_⟩
      intro s hs hssel
      rcases List.mem_append.1 hs with hs | hs
      · exact hall s hs hssel
      · simp only [List.mem_singleton] at hs
        subst hs
        cases hssel
theorem storeInv_erase {st : StoreState} (h : StoreInv st) (i : Nat)
    (hq : st.selected ≠ some i) :
    StoreInv { st with shapes := eraseFirstById st.shapes i } := by
  obtain ⟨hnd, hlt, hsel⟩ := h
  refine ⟨?_, ?_, ?_⟩
  · exact List.Nodup.sublist
      (List.Sublist.map Shape.id (eraseFirstById_sublist st.shapes i)) hnd
  · intro s hs
    exact hlt s (mem_of_mem_eraseFirstById hs)
  · show SelConsistent _
    unfold SelConsistent at hsel ⊢
    have heq : ({ st with shapes := eraseFirstById st.shapes i } :
        StoreState).selected = st.selected := rfl
    rw [heq]
    rcases hj : st.selected with _ | j <;> rw [hj] at hsel <;> dsimp only
    · intro s hs
      exact hsel s (mem_of_mem_eraseFirstById hs)
    · obtain ⟨⟨a, ha, hai, hasel⟩, hall⟩ := hsel
      have hji : j ≠ i := fun hc => hq (hj.trans (congrArg some hc))
      refine ⟨⟨a, mem_eraseFirstById_of_ne ha (hai ▸ hji), hai, hasel⟩, ?_⟩
      intro s hs hssel
      exact hall s (mem_of_mem_eraseFirstById hs) hssel

theorem storeInv_removeShape {st : StoreState} (h : StoreInv st) (i : Nat) :
    StoreInv (removeShape st i).1 := by
  unfold removeShape
  split_ifs with hany hq
  · exact storeInv_erase (storeInv_deselectAll h) i (by simp [deselectAll])
  · exact storeInv_erase h i hq
  · exact h

theorem storeInv_deleteSelected {st : StoreState} (h : StoreInv st) :
    StoreInv (deleteSelected st).1 := by
  unfold deleteSelected
  cases st.selected with
  | none => exact h
  | some i => exact storeInv_removeShape h i

theorem storeInv_selectShapeById {st : StoreState} (h : StoreInv st)
    (i : Nat) : StoreInv (selectShapeById st i).1 := by
  unfold selectShapeById
  cases hf : st.shapes.find? (fun s => s.id = i) with
  | none => exact h
  | some s =>
    exact storeInv_selectShape h s.id ⟨s, List.mem_of_find?_eq_some hf, rfl⟩

theorem getShapeAtPoint_mem {st : StoreState} {p : Point} {s : Shape}
    (hf : getShapeAtPoint st p = some s) : s ∈ st.shapes := by
  unfold getShapeAtPoint at hf
  exact List.mem_reverse.1 (List.mem_of_find?_eq_some hf)

theorem storeInv_trySelectAtPoint {st : StoreState} (h : StoreInv st)
    (p : Point) : StoreInv (trySelectAtPoint st p).1 := by
  unfold trySelectAtPoint
  cases hf : getShapeAtPoint st p with
  | none => exact storeInv_deselectAll h
  | some s =>
    exact storeInv_selectShape h s.id ⟨s, getShapeAtPoint_mem hf, rfl⟩

theorem storeInv_bringToFront {st : StoreState} (h : StoreInv st) :
    StoreInv (bringToFront st) := by
  unfold bringToFront
  cases hq : st.selected with
  | none => exact h
  | some i =>
    dsimp only
    cases hf : st.shapes.find? (fun s => s.id = i) with
    | none => exact h
    | some s =>
      dsimp only
      obtain ⟨hnd, hlt, hsel⟩ := h
      have hmem : s ∈ st.shapes := List.mem_of_find?_eq_some hf
      have hsid : s.id = i := by simpa using List.find?_some hf
      refine ⟨?_, ?_, ?_⟩
      · rw [List.map_append, List.nodup_append]
        refine ⟨List.Nodup.sublist
          (List.Sublist.map Shape.id (eraseFirstById_sublist _ _)) hnd,
          List.nodup_singleton _, ?_⟩
        intro a ha hb
        simp only [List.map_cons, List.map_nil, List.mem_singleton] at hb
        subst hb
        rw [hsid] at ha
        exact not_mem_map_id_eraseFirstById hnd ha
      · intro a ha
        rcases List.mem_append.1 ha with ha | ha
        · exact hlt a (mem_of_mem_eraseFirstById ha)
        · simp only [List.mem_singleton] at ha
          rw [ha]
          exact hlt s hmem
      · show SelConsistent _
        unfold SelConsistent at hsel ⊢
        rw [hq] at hsel
        dsimp only at hsel ⊢
        obtain ⟨⟨a, ha, hai, hasel⟩, hall⟩ := hsel
        have hsa : s = a := id_unique hnd hmem ha (by rw [hsid, hai])
        refine ⟨⟨s, List.mem_append_right _ (List.mem_singleton_self s),
          hsid, by rw [hsa]; exact hasel⟩, ?_⟩
        intro b hb hbsel
        rcases List.mem_append.1 hb with hb | hb
        · exact hall b (mem_of_mem_eraseFirstById hb) hbsel
        · simp only [List.mem_singleton] at hb
          subst hb
          exact hsid

theorem storeInv_sendToBack {st : StoreState} (h : StoreInv st) :
    StoreInv (sendToBack st) := by
  unfold sendToBack
  cases hq : st.selected with
  | none => exact h
  | some i =>
    dsimp only
    cases hf : st.shapes.find? (fun s => s.id = i) with
    | none => exact h
    | some s =>
      dsimp only
      obtain ⟨hnd, hlt, hsel⟩ := h
      have hmem : s ∈ st.shapes := List.mem_of_find?_eq_some hf
      have hsid : s.id = i := by simpa using List.find?_some hf
      refine ⟨?_, ?_, ?_⟩
      · rw [List.map_cons, List.nodup_cons]
        refine ⟨?_, List.Nodup.sublist
          (List.Sublist.map Shape.id (eraseFirstById_sublist _ _)) hnd⟩
        rw [hsid]
        exact not_mem_map_id_eraseFirstById hnd
      · intro a ha
        rcases List.mem_cons.1 ha with rfl | ha
        · exact hlt a hmem
        · exact hlt a (mem_of_mem_eraseFirstById ha)
      · show SelConsistent _
        unfold SelConsistent at hsel ⊢
        rw [hq] at hsel
        dsimp only at hsel ⊢
        obtain ⟨⟨a, ha, hai, hasel⟩, hall⟩ := hsel
        have hsa : s = a := id_unique hnd hmem ha (by rw [hsid, hai])
        refine ⟨⟨s, List.mem_cons_self s _, hsid,
          by rw [hsa]; exact hasel⟩, ?_⟩
        intro b hb hbsel
        rcases List.mem_cons.1 hb with rfl | hb
        · exact hsid
        · exact hall b (mem_of_mem_eraseFirstById hb) hbsel

theorem storeInv_clearStore {st : StoreState} (_h : StoreInv st) :
    StoreInv (clearStore st).1 := by
  refine ⟨by simp [clearStore], by simp [clearStore], ?_⟩
  show SelConsistent _
  unfold SelConsistent
  dsimp only [clearStore]
  intro s hs
  simp at hs
/-- C6: single-selection invariant.  Under the store invariant, at most
one shape is flagged selected; the selected reference is null (then no
shape is flagged) or names the unique flagged shape; and the invariant
is preserved by selectShape (of a store member), selectShapeById,
trySelectAtPoint, deselectAll, removeShape, deleteSelected,
bringToFront, sendToBack, clear, and createShape. -/
theorem single_selection_invariant (st : StoreState) (hInv : StoreInv st) :
    st.shapes.countP (fun s => s.isSelected) ≤ 1 ∧
    (st.selected = none → ∀ s ∈ st.shapes, s.isSelected = false) ∧
    (∀ i, st.selected = some i →
      (∃ s ∈ st.shapes, s.id = i ∧ s.isSelected = true) ∧
      ∀ s ∈ st.shapes, s.isSelected = true → s.id = i) ∧
    (∀ i, (∃ s ∈ st.shapes, s.id = i) → StoreInv (selectShape st i).1) ∧
    (∀ i, StoreInv (selectShapeById st i).1) ∧
    (∀ p, StoreInv (trySelectAtPoint st p).1) ∧
    StoreInv (deselectAll st).1 ∧
    (∀ i, StoreInv (removeShape st i).1) ∧
    StoreInv (deleteSelected st).1 ∧
    StoreInv (bringToFront st) ∧
    StoreInv (sendToBack st) ∧
    StoreInv (clearStore st).1 ∧
    (∀ x y w hgt, StoreInv (createShape st x y w hgt).1) := by
  have hsel := hInv.2.2
  unfold SelConsistent at hsel
  refine ⟨?_, ?_, ?_, fun i hex => storeInv_selectShape hInv i hex,
    fun i => storeInv_selectShapeById hInv i,
    fun p => storeInv_trySelectAtPoint hInv p,
    storeInv_deselectAll hInv,
    fun i => storeInv_removeShape hInv i,
    storeInv_deleteSelected hInv,
    storeInv_bringToFront hInv,
    storeInv_sendToBack hInv,
    storeInv_clearStore hInv,
    fun x y w hgt => storeInv_createShape hInv x y w hgt⟩
  · rcases hq : st.selected with _ | i <;> rw [hq] at hsel <;> dsimp only at hsel
    · have : st.shapes.countP (fun s => s.isSelected) = 0 := by
        rw [List.countP_eq_zero]
        intro a ha
        simp [hsel a ha]
      omega
    · exact countP_selected_le_one hInv.1 hsel.2
  · intro hq
    rw [hq] at hsel
    exact hsel
  · intro i hq
    rw [hq] at hsel
    exact hsel

/-- C6 witness: the invariant instantiated at the concrete one-rectangle
store. -/
theorem single_selection_invariant_witness :
    rectStore.shapes.countP (fun s => s.isSelected) ≤ 1 ∧
    StoreInv (deselectAll rectStore).1 ∧
    (∀ i, StoreInv (removeShape rectStore i).1) := by
  have hInv : StoreInv rectStore := by
    refine ⟨by simp [rectStore], by simp [rectStore], ?_⟩
    show SelConsistent rectStore
    unfold SelConsistent
    rw [show rectStore.selected = none from rfl]
    intro s hs
    simp only [rectStore, List.mem_singleton] at hs
    rw [hs]
  have h := single_selection_invariant rectStore hInv
  exact ⟨h.1, h.2.2.2.2.2.2.1, h.2.2.2.2.2.2.2.1⟩
/-- The nice-rounding map always lands in [1, 10]. -/
theorem niceNormalizedOf_bounds (q : ℚ) :
    1 ≤ niceNormalizedOf q ∧ niceNormalizedOf q ≤ 10 := by
  unfold niceNormalizedOf
  split_ifs <;> norm_num

/-- The nice-rounding map is monotone. -/
theorem niceNormalizedOf_mono {q1 q2 : ℚ} (h : q1 ≤ q2) :
    niceNormalizedOf q1 ≤ niceNormalizedOf q2 := by
  unfold niceNormalizedOf
  split_ifs <;> linarith

/-- Monotonicity of the nice-rounded spacing in the world spacing: on
equal magnitudes the normalized values compare, and across a magnitude
step the upper bound 10·10ⁿ¹ = 10ⁿ¹⁺¹ ≤ 10ⁿ² bridges. -/
theorem nice_times_mag_mono (w1 w2 : ℚ) (hw1 : 0 < w1) (hle : w1 ≤ w2) :
    niceNormalizedOf (w1 / (10 : ℚ) ^ (Int.log 10 w1))
        * (10 : ℚ) ^ (Int.log 10 w1)
      ≤ niceNormalizedOf (w2 / (10 : ℚ) ^ (Int.log 10 w2))
        * (10 : ℚ) ^ (Int.log 10 w2) := by
  have hmag1 : (0 : ℚ) < (10 : ℚ) ^ (Int.log 10 w1) :=
    zpow_pos (by norm_num) _
  have hmag2 : (0 : ℚ) < (10 : ℚ) ^ (Int.log 10 w2) :=
    zpow_pos (by norm_num) _
  have hlog : Int.log 10 w1 ≤ Int.log 10 w2 :=
    Int.log_mono_right hw1 hle
  rcases eq_or_lt_of_le hlog with heq | hlt
  · rw [← heq]
    apply mul_le_mul_of_nonneg_right _ (le_of_lt hmag1)
    exact niceNormalizedOf_mono ((div_le_div_iff_of_pos_right hmag1).2 hle)
  · calc niceNormalizedOf (w1 / (10 : ℚ) ^ (Int.log 10 w1))
          * (10 : ℚ) ^ (Int.log 10 w1)
        ≤ 10 * (10 : ℚ) ^ (Int.log 10 w1) :=
          mul_le_mul_of_nonneg_right (niceNormalizedOf_bounds _).2
            (le_of_lt hmag1)
      _ = (10 : ℚ) ^ (Int.log 10 w1 + 1) := by
          rw [zpow_add_one₀ (by norm_num : (10 : ℚ) ≠ 0)]
          ring
      _ ≤ (10 : ℚ) ^ (Int.log 10 w2) :=
          zpow_le_zpow_right₀ (by norm_num) hlt
      _ ≤ niceNormalizedOf (w2 / (10 : ℚ) ^ (Int.log 10 w2))
          * (10 : ℚ) ^ (Int.log 10 w2) :=
          le_mul_of_one_le_left (le_of_lt hmag2)
            (niceNormalizedOf_bounds _).1

/-- C7: tick spacing is monotone (non-increasing in the scale) and
nice-valued: for positive scales s1 ≤ s2 the spacing at s2 is at most
the spacing at s1, and at every positive scale the result is m·10ⁿ
with m one of 1, 2, 5, 10 and integer n. -/
theorem calculateTickSpacing_nice_and_antitone (s1 s2 : ℚ)
    (h1 : 0 < s1) (hle : s1 ≤ s2) :
    calculateTickSpacing s2 ≤ calculateTickSpacing s1 ∧
    (∀ s : ℚ, 0 < s → ∃ (m : ℚ) (n : ℤ),
      (m = 1 ∨ m = 2 ∨ m = 5 ∨ m = 10) ∧
      calculateTickSpacing s = m * (10 : ℚ) ^ n) := by
  constructor
  · have h2 : 0 < s2 := lt_of_lt_of_le h1 hle
    have hws : 80 / s2 ≤ 80 / s1 := by
      apply div_le_div_of_nonneg_left (by norm_num) h1 hle
    have hws2 : (0 : ℚ) < 80 / s2 := by positivity
    exact nice_times_mag_mono (80 / s2) (80 / s1) hws2 hws
  · intro s hs
    refine ⟨niceNormalizedOf ((80 / s) /
        (10 : ℚ) ^ (Int.log 10 (80 / s))), Int.log 10 (80 / s), ?_, rfl⟩
    unfold niceNormalizedOf
    split_ifs <;> norm_num

/-- C7 witness: concrete instance at scales 1 ≤ 2: spacing does not
increase, and the spacing at scale 1 is a nice value. -/
theorem calculateTickSpacing_nice_and_antitone_witness :
    calculateTickSpacing 2 ≤ calculateTickSpacing 1 ∧
    (∃ (m : ℚ) (n : ℤ), (m = 1 ∨ m = 2 ∨ m = 5 ∨ m = 10) ∧
      calculateTickSpacing 1 = m * (10 : ℚ) ^ n) := by
  have h := calculateTickSpacing_nice_and_antitone 1 2 (by norm_num)
    (by norm_num)
  exact ⟨h.1, h.2 1 (by norm_num)⟩

end Oneiro
